import Mathlib

/-!
Verification development for the pvo_limburg repository.

Shallow embedding of:
* `src/geoNames/gazetteer_parser.py` — `load_geonames_file` (gazetteer construction);
* `src/geo_filter.py` — the module-level gazetteer merge, `voting_country_from_locations`,
  and `filtering_articles_by_country`;
* `src/sme_filter.py` — the thresholding step of `run_snorkel`.

Python strings are modelled as Lean `String`; Python floats as `ℚ`
(the claims concern only comparisons and exact ratios); a Python dict built by
repeated assignment is modelled as an association list where the most recent
assignment sits at the front and lookup takes the first match.
Fallible functions return `Except PyError _`.
-/

namespace PvoLimburg

/-! ### Python string primitives used by the source -/

/-- Python's whitespace class (`str.strip` / regex `\s` on a `str`). -/
def pyIsSpace (c : Char) : Bool :=
  c = ' ' || c = '\t' || c = '\n' || c = '\r' || c = '\x0b' || c = '\x0c' ||
  c.toNat = 0x1c || c.toNat = 0x1d || c.toNat = 0x1e || c.toNat = 0x1f ||
  c.toNat = 0x85 || c.toNat = 0xa0 || c.toNat = 0x1680 ||
  (0x2000 ≤ c.toNat && c.toNat ≤ 0x200a) ||
  c.toNat = 0x2028 || c.toNat = 0x2029 || c.toNat = 0x202f ||
  c.toNat = 0x205f || c.toNat = 0x3000

/-- Python `str.strip()`: drop whitespace from both ends. -/
def pyStrip (s : String) : String :=
  String.mk (((s.toList.dropWhile pyIsSpace).reverse.dropWhile pyIsSpace).reverse)

/-- Python `str.lower()`, restricted to the Latin-1 repertoire plus `Ÿ`
(the only characters the gazetteer's `LATIN_ONLY` class admits);
all other characters are left unchanged. -/
def pyLowerChar (c : Char) : Char :=
  if 'A' ≤ c ∧ c ≤ 'Z' then Char.ofNat (c.toNat + 32)
  else if 0xC0 ≤ c.toNat ∧ c.toNat ≤ 0xDE ∧ c.toNat ≠ 0xD7 then Char.ofNat (c.toNat + 32)
  else if c.toNat = 0x178 then Char.ofNat 0xFF
  else c

/-- Python `str.lower()` applied characterwise. -/
def pyLower (s : String) : String :=
  String.mk (s.toList.map pyLowerChar)

/-! ### `src/geoNames/gazetteer_parser.py` -/

/-- One character of the class in `LATIN_ONLY = re.compile(r"^[0-9A-Za-zÀ-ÿ\s\-\']+$")`:
digits, ASCII letters, the Latin-1 range U+00C0–U+00FF, whitespace, hyphen, apostrophe. -/
def latinOnlyChar (c : Char) : Bool :=
  ('0' ≤ c && c ≤ '9') || ('A' ≤ c && c ≤ 'Z') || ('a' ≤ c && c ≤ 'z') ||
  (0xC0 ≤ c.toNat && c.toNat ≤ 0xFF) || pyIsSpace c || c = '-' || c = '\x27'

/-- Success of `LATIN_ONLY.match(s)`: `s` is non-empty and every character is in the
class (the pattern is anchored and uses `+`). -/
def latinOnly (s : String) : Bool :=
  s ≠ "" && s.toList.all latinOnlyChar

/-- One character of the class in `HAS_VOWEL = re.compile(r"[aeiouyà-ÿ]", re.IGNORECASE)`:
`aeiouy` in either case, the range U+00E0–U+00FF, and (via IGNORECASE) the
uppercase counterparts U+00C0–U+00DE minus `×` plus `Ÿ`. -/
def hasVowelChar (c : Char) : Bool :=
  c = 'a' || c = 'e' || c = 'i' || c = 'o' || c = 'u' || c = 'y' ||
  c = 'A' || c = 'E' || c = 'I' || c = 'O' || c = 'U' || c = 'Y' ||
  (0xE0 ≤ c.toNat && c.toNat ≤ 0xFF) ||
  (0xC0 ≤ c.toNat && c.toNat ≤ 0xDE && c.toNat ≠ 0xD7) ||
  c.toNat = 0x178

/-- Success of `HAS_VOWEL.search(s)`: some character of `s` is in the class. -/
def hasVowel (s : String) : Bool :=
  s.toList.any hasVowelChar

/-- A gazetteer: a Python dict `{name_lower: country_code}` as an association
list, most recent assignment first. -/
abbrev Gaz := List (String × String)

/-- Dict lookup `g.get(k)`: the most recent assignment to `k`, if any. -/
def gazGet (g : Gaz) (k : String) : Option String :=
  (g.find? (fun p => p.1 = k)).map (fun p => p.2)

/-- Dict assignment `g[k] = v`. -/
def gazSet (g : Gaz) (k v : String) : Gaz := (k, v) :: g

/-- Python `s.split(",")` for a non-empty separator: cut the character list at
every comma, keeping empty pieces (structural recursion so that concrete
instances evaluate). -/
def splitOnComma (s : String) : List String :=
  (s.toList.foldr
    (fun c acc =>
      match acc with
      | [] => if c = ',' then [[], []] else [[c]]
      | cur :: rest => if c = ',' then [] :: cur :: rest else (c :: cur) :: rest)
    [[]]).map String.mk

/-- The list of alternate-name strings a row offers:
`row[3].split(",") if (row[3] and keep_alternates) else []`. -/
def altCandidates (row : List String) (keep_alternates : Bool) : List String :=
  if row.getD 3 "" ≠ "" ∧ keep_alternates then splitOnComma (row.getD 3 "") else []

/-- The body of the inner `for alt in alt_names:` loop of `load_geonames_file`
(`src/geoNames/gazetteer_parser.py` lines 40–50): strip, lowercase, then the
four `continue` guards, then the dict assignment. -/
def processAlt (country_code : String) (acc : Gaz) (a : String) : Gaz :=
  let alt := pyLower (pyStrip a)
  if alt = "" then acc
  else if ¬ latinOnly alt then acc
  else if alt.length < 3 then acc
  else if ¬ hasVowel alt then acc
  else gazSet acc alt country_code

/-- The body of `load_geonames_file`'s row loop for one `row` of the
tab-separated file (a row is the list of its fields).  Mirrors
`src/geoNames/gazetteer_parser.py` lines 22–50. -/
def processRow (keep_countries keep_classes : List String) (keep_alternates : Bool)
    (g : Gaz) (row : List String) : Gaz :=
  if row.length < 9 then g
  else
    let name := row.getD 1 ""
    let alt_names := altCandidates row keep_alternates
    let feature_class := row.getD 6 ""
    let country_code := row.getD 8 ""
    if country_code ∉ keep_countries then g
    else if feature_class ∉ keep_classes then g
    else
      let main := pyLower (pyStrip name)
      let g1 := if main ≠ "" ∧ latinOnly main then gazSet g main country_code else g
      alt_names.foldl (processAlt country_code) g1

/-- Spec-side description of the primary-name filter: after stripping and
lowercasing, the name must be non-empty and match the allowed-character
pattern (no length or vowel condition). -/
def mainKept (name : String) : Bool :=
  let main := pyLower (pyStrip name)
  main ≠ "" && latinOnly main

/-- Spec-side description of the alternate-name filter: after stripping and
lowercasing, the name must be non-empty, match the allowed-character pattern,
have length at least 3, and contain a `HAS_VOWEL` character. -/
def altKept (a : String) : Bool :=
  let alt := pyLower (pyStrip a)
  alt ≠ "" && latinOnly alt && decide (3 ≤ alt.length) && hasVowel alt

/-- The whole of `load_geonames_file`: fold the row loop over the file's rows,
starting from the empty dict.  File I/O and CSV splitting are modelled by
taking the list of already-split rows as input. -/
def load_geonames_file (rows : List (List String))
    (keep_countries : List String := ["NL", "BE", "DE"])
    (keep_classes : List String := ["P", "A"])
    (keep_alternates : Bool := true) : Gaz :=
  rows.foldl (processRow keep_countries keep_classes keep_alternates) []

/-! ### `src/geo_filter.py` — gazetteer merge (lines 66–68) -/

/-- Python `old.update(new)`: every key of `new` is (re)assigned in `old`, in
`new`'s iteration order; with the most-recent-first representation this is
`new ++ old`. -/
def dictUpdate (old new_ : Gaz) : Gaz := new_ ++ old

/-- The module-level merge `gazetteer = {}` followed by
`for g in tables: gazetteer.update(g)` (`src/geo_filter.py` lines 66–68). -/
def mergeGazetteers (tables : List Gaz) : Gaz :=
  tables.foldl dictUpdate []

/-! ### `src/geo_filter.py` — `voting_country_from_locations` (lines 75–102) -/

/-- One step of the loop `for loc in locations:` — the state is the vote
counter `{"NL": nl, "BE": be, "DE": de}` (fixed insertion order NL, BE, DE)
together with the `evidence` list.  `cc = gazetteer.get(loc.lower())`; the
`if cc in votes` membership test is the three-way comparison. -/
def voteStep (gazetteer : Gaz) (st : (Nat × Nat × Nat) × List (String × String))
    (loc : String) : (Nat × Nat × Nat) × List (String × String) :=
  let nl := st.1.1; let be := st.1.2.1; let de := st.1.2.2; let ev := st.2
  match gazGet gazetteer (pyLower loc) with
  | some cc =>
      if cc = "NL" then ((nl + 1, be, de), ev ++ [(loc, cc)])
      else if cc = "BE" then ((nl, be + 1, de), ev ++ [(loc, cc)])
      else if cc = "DE" then ((nl, be, de + 1), ev ++ [(loc, cc)])
      else ((nl, be, de), ev)
  | none => ((nl, be, de), ev)

/-- The vote counter and evidence after the whole loop, started from
`votes = {"NL": 0, "BE": 0, "DE": 0}` and `evidence = []`. -/
def tallyVotes (locations : List String) (gazetteer : Gaz) :
    (Nat × Nat × Nat) × List (String × String) :=
  locations.foldl (voteStep gazetteer) ((0, 0, 0), [])

/-- Python `max(items, key=lambda kv: kv[1])` over a non-empty sequence:
scan left to right keeping the current best, replacing it only on a strictly
greater key — so the first of several maximal items wins. -/
def pyMaxBySnd (hd : String × Nat) (tl : List (String × Nat)) : String × Nat :=
  tl.foldl (fun best kv => if best.2 < kv.2 then kv else best) hd

/-- The line `best_cc, best_val = max(votes.items(), key=lambda kv: kv[1])` —
the dict's items iterate in insertion order NL, BE, DE. -/
def winnerOf (locations : List String) (gazetteer : Gaz) : String × Nat :=
  let v := (tallyVotes locations gazetteer).1
  pyMaxBySnd ("NL", v.1) [("BE", v.2.1), ("DE", v.2.2)]

/-- The line `total = sum(votes.values())`. -/
def voteTotal (locations : List String) (gazetteer : Gaz) : Nat :=
  let v := (tallyVotes locations gazetteer).1
  v.1 + v.2.1 + v.2.2

/-- The line `confidence = best_val / total` (exact rational in the model). -/
def confidenceOf (locations : List String) (gazetteer : Gaz) : ℚ :=
  ((winnerOf locations gazetteer).2 : ℚ) / (voteTotal locations gazetteer : ℚ)

/-- The function `voting_country_from_locations(locations, gazetteer,
threshold=0.6)`: returns the tuple `(country, confidence, evidence)`. -/
def voting_country_from_locations (locations : List String) (gazetteer : Gaz)
    (threshold : ℚ := 6/10) : String × ℚ × List (String × String) :=
  let evidence := (tallyVotes locations gazetteer).2
  if voteTotal locations gazetteer = 0 then ("uncertain", 0, [])
  else
    let best_cc := (winnerOf locations gazetteer).1
    let confidence := confidenceOf locations gazetteer
    if confidence < threshold then ("uncertain", confidence, evidence)
    else (best_cc, confidence, evidence)

/-! ### `src/geo_filter.py` — `filtering_articles_by_country` (lines 107–125) -/

/-- The Python exceptions the modelled code can raise. -/
inductive PyError where
  | valueError (msg : String)
  | zeroDivisionError
deriving DecidableEq, Repr

/-- The set `TARGET_COUNTRIES = {"NL", "BE", "DE"}`. -/
def TARGET_COUNTRIES : List String := ["NL", "BE", "DE"]

/-- A row of the geo DataFrame, with the two columns the filter reads. -/
structure GeoRow where
  country : String
  country_score : ℚ
deriving DecidableEq, Repr

/-- The DataFrame: its column labels plus its rows. -/
structure GeoDataFrame where
  columns : List String
  rows : List GeoRow
deriving DecidableEq, Repr

/-- The function `filtering_articles_by_country(df, min_conf=0.6)`.  The column
check raises `ValueError`; the progress message's `kept/total` ratio raises
`ZeroDivisionError` when the frame has no rows (the mask and the filtered copy
are computed before the print, but the exception escapes before anything is
returned); otherwise the kept rows (a fresh copy) are returned. -/
def filtering_articles_by_country (df : GeoDataFrame) (min_conf : ℚ := 6/10) :
    Except PyError GeoDataFrame :=
  if "country" ∉ df.columns ∨ "country_score" ∉ df.columns then
    .error (.valueError "Missing required columns: country and country_score.")
  else
    let kept := df.rows.filter (fun r =>
      decide (r.country ∈ TARGET_COUNTRIES) && decide (min_conf ≤ r.country_score))
    if df.rows.length = 0 then .error .zeroDivisionError
    else .ok ⟨df.columns, kept⟩

/-! ### `src/sme_filter.py` — `run_snorkel` (lines 194–231), thresholding step

The Snorkel `LabelModel` is library code outside this repository; its
per-row positive-class probabilities `probs[:, 1]` enter the model as the
`probs` argument.  The embedded part is step 3: attaching `sme_probability`
and `sme_label = (sme_probability >= min_conf).astype(int)` to each row. -/

/-- Output columns of `run_snorkel` for each row: the original row data, the
retained `sme_probability`, and the binary `sme_label`. -/
def run_snorkel {α : Type} (rows : List α) (probs : List ℚ) (min_conf : ℚ := 6/10) :
    List (α × ℚ × Nat) :=
  (rows.zip probs).map (fun rp => (rp.1, rp.2, if min_conf ≤ rp.2 then 1 else 0))

/-- Sum of the three counter fields (used to reason about `voteTotal`). -/
def totalOf (v : Nat × Nat × Nat) : Nat := v.1 + v.2.1 + v.2.2

/-! ### Helper lemmas -/

/-- Lookup in a concatenation of dict representations: the left (more
recent) part wins. -/
lemma gazGet_append (g₁ g₂ : Gaz) (k : String) :
    gazGet (g₁ ++ g₂) k = (gazGet g₁ k).or (gazGet g₂ k) := by
  unfold gazGet
  rw [List.find?_append]
  cases List.find? (fun p => p.1 = k) g₁ <;> simp [Option.or]

/-- Lookup in the empty dict. -/
lemma gazGet_nil (k : String) : gazGet [] k = none := rfl

end PvoLimburg

namespace PvoLimburg

/-! ### Claim C4 — last-writer-wins gazetteer merge -/

/-- C4.  Merging the per-country tables is last-writer-wins: for the fixed
merge order NL, BE, DE, the lookup of any name is given deterministically by
consulting the DE table first, then BE, then NL (so a name colliding across
tables resolves to the last table merged that contains it); and, as the two
concrete instances show, changing the merge order changes the result for a
colliding name. -/
theorem merge_last_writer_wins :
    (∀ (nl_gaz be_gaz de_gaz : Gaz) (name : String),
      gazGet (mergeGazetteers [nl_gaz, be_gaz, de_gaz]) name =
        ((gazGet de_gaz name).or ((gazGet be_gaz name).or (gazGet nl_gaz name)))) ∧
    gazGet (mergeGazetteers [[("vise", "NL")], [], [("vise", "DE")]]) "vise" = some "DE" ∧
    gazGet (mergeGazetteers [[("vise", "DE")], [], [("vise", "NL")]]) "vise" = some "NL" := by
  refine ⟨?_, by decide, by decide⟩
  intro nl_gaz be_gaz de_gaz name
  show gazGet (de_gaz ++ (be_gaz ++ (nl_gaz ++ []))) name = _
  rw [List.append_nil, gazGet_append, gazGet_append]

/-! ### Claims C7 and C10 — `filtering_articles_by_country` error behaviour -/

/-- C7.  The descriptive `ValueError` is raised exactly when the input frame
lacks the `country` column or lacks the `country_score` column, and whenever a
column is missing the call never returns a filtered frame (no other observable
progress: the result is the error alone). -/
theorem filtering_missing_columns_iff :
    ∀ (df : GeoDataFrame) (min_conf : ℚ),
      (filtering_articles_by_country df min_conf =
          .error (.valueError "Missing required columns: country and country_score.")
        ↔ ("country" ∉ df.columns ∨ "country_score" ∉ df.columns)) ∧
      (∀ out : GeoDataFrame,
        ("country" ∉ df.columns ∨ "country_score" ∉ df.columns) →
        filtering_articles_by_country df min_conf ≠ .ok out) := by
  intro df min_conf
  by_cases h : "country" ∉ df.columns ∨ "country_score" ∉ df.columns
  · constructor
    · simp [filtering_articles_by_country, h]
    · intro out _
      simp [filtering_articles_by_country, h]
  · constructor
    · rw [filtering_articles_by_country, if_neg h]
      by_cases hz : df.rows.length = 0 <;> simp [hz, h]
    · intro out hmiss
      exact absurd hmiss h

/-- Witness for C7 at a concrete frame lacking both columns. -/
theorem filtering_missing_columns_iff_witness :
    filtering_articles_by_country ⟨["title"], [⟨"NL", 1⟩]⟩ (6/10) ≠
      .ok ⟨["title"], [⟨"NL", 1⟩]⟩ :=
  (filtering_missing_columns_iff ⟨["title"], [⟨"NL", 1⟩]⟩ (6/10)).2
    ⟨["title"], [⟨"NL", 1⟩]⟩ (by decide)

/-- C10.  When the frame has both required columns but no rows, the progress
message's `kept/total` ratio divides by zero, so the call raises
`ZeroDivisionError` instead of returning an empty filtered frame. -/
theorem filtering_empty_frame_zero_division :
    ∀ (df : GeoDataFrame) (min_conf : ℚ),
      "country" ∈ df.columns → "country_score" ∈ df.columns → df.rows = [] →
      filtering_articles_by_country df min_conf = .error .zeroDivisionError := by
  intro df min_conf h1 h2 h3
  rw [filtering_articles_by_country, if_neg (by simp [h1, h2]), h3]
  rfl

/-- Witness for C10 at a concrete empty frame with both columns. -/
theorem filtering_empty_frame_zero_division_witness :
    filtering_articles_by_country ⟨["country", "country_score"], []⟩ (6/10) =
      .error .zeroDivisionError :=
  filtering_empty_frame_zero_division ⟨["country", "country_score"], []⟩ (6/10)
    (by decide) (by decide) rfl

/-! ### Claim C8 — SME thresholding retains the probability -/

/-- C8.  In the output of `run_snorkel`, every row's `sme_label` is `1` exactly
when its `sme_probability` is at least `min_conf` and `0` otherwise, and the
`sme_probability` column of the row is exactly the label model's probability
for that row (retained, never discarded), so re-thresholding needs no
recomputation. -/
theorem run_snorkel_threshold :
    ∀ {α : Type} (rows : List α) (probs : List ℚ) (min_conf : ℚ) (i : ℕ)
      (r : α) (p : ℚ) (l : ℕ),
      (run_snorkel rows probs min_conf)[i]? = some (r, p, l) →
      rows[i]? = some r ∧ probs[i]? = some p ∧
      (l = 1 ↔ min_conf ≤ p) ∧ (l = 0 ↔ ¬ min_conf ≤ p) := by
  intro α rows probs min_conf i r p l h
  rw [run_snorkel, List.getElem?_map] at h
  cases hz : (rows.zip probs)[i]? with
  | none => rw [hz] at h; exact absurd h (by simp)
  | some rp =>
      rw [hz] at h
      rw [Option.map_some'] at h
      have hf : (rp.1, rp.2, if min_conf ≤ rp.2 then (1 : ℕ) else 0) = (r, p, l) :=
        Option.some.inj h
      obtain ⟨hl, hr⟩ := List.getElem?_zip_eq_some.mp hz
      have h1 : rp.1 = r := congrArg Prod.fst hf
      have h2 : rp.2 = p := congrArg (fun t => t.2.1) hf
      have h3 : (if min_conf ≤ rp.2 then (1 : ℕ) else 0) = l :=
        congrArg (fun t => t.2.2) hf
      subst h1
      subst h2
      refine ⟨hl, hr, ?_, ?_⟩ <;> by_cases hc : min_conf ≤ rp.2 <;>
        simp [hc] at h3 ⊢ <;> omega

/-- Witness for C8 at one concrete row with probability 1 and cutoff 0. -/
theorem run_snorkel_threshold_witness :
    (run_snorkel ["a"] [(1 : ℚ)] 0)[0]? = some ("a", 1, 1) ∧
    (["a"][0]? = some "a" ∧ [(1 : ℚ)][0]? = some 1 ∧
      ((1 : ℕ) = 1 ↔ (0 : ℚ) ≤ 1) ∧ ((1 : ℕ) = 0 ↔ ¬ (0 : ℚ) ≤ 1)) := by
  have hrun : (run_snorkel ["a"] [(1 : ℚ)] 0)[0]? = some ("a", 1, 1) := by
    simp [run_snorkel]
  exact ⟨hrun, run_snorkel_threshold ["a"] [(1 : ℚ)] 0 0 "a" 1 1 hrun⟩

/-! ### Voting helper lemmas -/

/-- One loop step leaves the state unchanged on a location that does not
resolve to one of the three counted countries. -/
lemma voteStep_no_match (gaz : Gaz) (st : (Nat × Nat × Nat) × List (String × String))
    (loc : String)
    (h : gazGet gaz (pyLower loc) ≠ some "NL" ∧ gazGet gaz (pyLower loc) ≠ some "BE" ∧
         gazGet gaz (pyLower loc) ≠ some "DE") :
    voteStep gaz st loc = st := by
  obtain ⟨st, ev⟩ := st
  obtain ⟨nl, be, de⟩ := st
  rw [voteStep]
  cases hg : gazGet gaz (pyLower loc) with
  | none => rfl
  | some cc =>
      have h1 : cc ≠ "NL" := fun hc => h.1 (hc ▸ hg)
      have h2 : cc ≠ "BE" := fun hc => h.2.1 (hc ▸ hg)
      have h3 : cc ≠ "DE" := fun hc => h.2.2 (hc ▸ hg)
      simp [h1, h2, h3]

/-- The whole loop leaves the state unchanged when no location resolves to a
counted country. -/
lemma foldl_voteStep_no_match (gaz : Gaz) :
    ∀ (l : List String) (st : (Nat × Nat × Nat) × List (String × String)),
      (∀ loc ∈ l,
        gazGet gaz (pyLower loc) ≠ some "NL" ∧ gazGet gaz (pyLower loc) ≠ some "BE" ∧
        gazGet gaz (pyLower loc) ≠ some "DE") →
      l.foldl (voteStep gaz) st = st := by
  intro l
  induction l with
  | nil => intro st _; rfl
  | cons a l ih =>
      intro st h
      rw [List.foldl_cons, voteStep_no_match gaz st a (h a (List.mem_cons_self a l))]
      exact ih st (fun loc hl => h loc (List.mem_cons_of_mem a hl))

end PvoLimburg

namespace PvoLimburg

/-! ### Claim C1 — the no-match case of the voter -/

/-- C1.  For every candidate-name list in which no name resolves (after
lowercasing) to NL, BE or DE via the gazetteer, and every threshold,
`voting_country_from_locations` returns exactly `("uncertain", 0.0, [])`. -/
theorem voting_no_match_uncertain :
    ∀ (locations : List String) (gaz : Gaz) (threshold : ℚ),
      (∀ loc ∈ locations,
        gazGet gaz (pyLower loc) ≠ some "NL" ∧ gazGet gaz (pyLower loc) ≠ some "BE" ∧
        gazGet gaz (pyLower loc) ≠ some "DE") →
      voting_country_from_locations locations gaz threshold = ("uncertain", 0, []) := by
  intro locations gaz threshold h
  have ht : tallyVotes locations gaz = ((0, 0, 0), []) :=
    foldl_voteStep_no_match gaz locations ((0, 0, 0), []) h
  have htot : voteTotal locations gaz = 0 := by rw [voteTotal, ht]; rfl
  rw [voting_country_from_locations, if_pos htot]

/-- Witness for C1: a candidate that resolves to a non-target country and a
candidate that does not resolve at all. -/
theorem voting_no_match_uncertain_witness :
    voting_country_from_locations ["Paris", "Atlantis"] [("paris", "FR")] (6/10) =
      ("uncertain", 0, []) :=
  voting_no_match_uncertain ["Paris", "Atlantis"] [("paris", "FR")] (6/10) (by decide)

end PvoLimburg

namespace PvoLimburg

/-! ### More voting helper lemmas -/

/-- One loop step never decreases the total vote count. -/
lemma voteStep_total_ge (gaz : Gaz) (st : (Nat × Nat × Nat) × List (String × String))
    (loc : String) : totalOf st.1 ≤ totalOf (voteStep gaz st loc).1 := by
  obtain ⟨⟨nl, be, de⟩, ev⟩ := st
  rw [voteStep]
  cases gazGet gaz (pyLower loc) with
  | none => exact le_refl _
  | some cc =>
      by_cases h1 : cc = "NL" <;> by_cases h2 : cc = "BE" <;> by_cases h3 : cc = "DE" <;>
        simp [h1, h2, h3, totalOf]

/-- One loop step on a location resolving to a counted country increments the
total vote count. -/
lemma voteStep_total_succ (gaz : Gaz) (st : (Nat × Nat × Nat) × List (String × String))
    (loc : String)
    (h : gazGet gaz (pyLower loc) = some "NL" ∨ gazGet gaz (pyLower loc) = some "BE" ∨
         gazGet gaz (pyLower loc) = some "DE") :
    totalOf (voteStep gaz st loc).1 = totalOf st.1 + 1 := by
  obtain ⟨⟨nl, be, de⟩, ev⟩ := st
  rw [voteStep]
  rcases h with h | h | h <;> rw [h] <;> simp [totalOf] <;> omega

/-- The whole loop never decreases the total vote count. -/
lemma foldl_voteStep_total_ge (gaz : Gaz) :
    ∀ (l : List String) (st : (Nat × Nat × Nat) × List (String × String)),
      totalOf st.1 ≤ totalOf (l.foldl (voteStep gaz) st).1 := by
  intro l
  induction l with
  | nil => intro st; exact le_refl _
  | cons a l ih =>
      intro st
      exact le_trans (voteStep_total_ge gaz st a) (ih (voteStep gaz st a))

/-- If some location resolves to a counted country, the final total vote count
is positive. -/
lemma exists_match_total_pos (gaz : Gaz) :
    ∀ (l : List String) (st : (Nat × Nat × Nat) × List (String × String)),
      (∃ loc ∈ l,
        gazGet gaz (pyLower loc) = some "NL" ∨ gazGet gaz (pyLower loc) = some "BE" ∨
        gazGet gaz (pyLower loc) = some "DE") →
      1 ≤ totalOf (l.foldl (voteStep gaz) st).1 := by
  intro l
  induction l with
  | nil => intro st h; obtain ⟨loc, hmem, _⟩ := h; exact absurd hmem (List.not_mem_nil loc)
  | cons a l ih =>
      intro st h
      obtain ⟨loc, hmem, hres⟩ := h
      rcases List.mem_cons.mp hmem with heq | hmem'
      · subst heq
        rw [List.foldl_cons]
        have h1 : 1 ≤ totalOf (voteStep gaz st loc).1 := by
          rw [voteStep_total_succ gaz st loc hres]; omega
        exact le_trans h1 (foldl_voteStep_total_ge gaz l (voteStep gaz st loc))
      · rw [List.foldl_cons]
        exact ih (voteStep gaz st a) ⟨loc, hmem', hres⟩

/-- The result of Python's first-max scan is one of the scanned items. -/
lemma pyMaxBySnd_mem :
    ∀ (tl : List (String × Nat)) (hd : String × Nat), pyMaxBySnd hd tl ∈ hd :: tl := by
  intro tl
  induction tl with
  | nil => intro hd; exact List.mem_singleton.mpr rfl
  | cons a tl ih =>
      intro hd
      have h := ih (if hd.2 < a.2 then a else hd)
      rw [pyMaxBySnd] at h ⊢
      rw [List.foldl_cons]
      rcases List.mem_cons.mp h with h' | h'
      · rw [h']
        by_cases hc : hd.2 < a.2 <;> simp [hc]
      · exact List.mem_cons_of_mem _ (List.mem_cons_of_mem _ h')

/-- The country component of the scan over the three counters is one of the
three country codes. -/
lemma pyMaxBySnd_fst_mem3 (n b d : Nat) :
    (pyMaxBySnd ("NL", n) [("BE", b), ("DE", d)]).1 ∈ (["NL", "BE", "DE"] : List String) := by
  have h := pyMaxBySnd_mem [("BE", b), ("DE", d)] ("NL", n)
  rcases List.mem_cons.mp h with h' | h'
  · rw [h']; simp
  rcases List.mem_cons.mp h' with h'' | h''
  · rw [h'']; simp
  rcases List.mem_cons.mp h'' with h3 | h3
  · rw [h3]; simp
  · exact absurd h3 (List.not_mem_nil _)

end PvoLimburg

namespace PvoLimburg

/-! ### Claim C2 — threshold boundary of the voter -/

/-- C2.  When at least one candidate resolves to NL, BE or DE, the voter
accepts exactly when the confidence reaches the threshold: a confidence equal
to (or above) the threshold yields the winning country — one of NL, BE, DE,
never the string `"uncertain"` — while a confidence strictly below the
threshold yields `"uncertain"` together with the same confidence and the same
evidence list. -/
theorem voting_threshold_boundary :
    ∀ (locations : List String) (gaz : Gaz) (threshold : ℚ),
      (∃ loc ∈ locations,
        gazGet gaz (pyLower loc) = some "NL" ∨ gazGet gaz (pyLower loc) = some "BE" ∨
        gazGet gaz (pyLower loc) = some "DE") →
      (winnerOf locations gaz).1 ∈ (["NL", "BE", "DE"] : List String) ∧
      (threshold ≤ confidenceOf locations gaz →
        voting_country_from_locations locations gaz threshold =
          ((winnerOf locations gaz).1, confidenceOf locations gaz,
            (tallyVotes locations gaz).2)) ∧
      (confidenceOf locations gaz < threshold →
        voting_country_from_locations locations gaz threshold =
          ("uncertain", confidenceOf locations gaz, (tallyVotes locations gaz).2)) := by
  intro locations gaz threshold hex
  have htot : voteTotal locations gaz ≠ 0 := by
    have h : 1 ≤ totalOf (tallyVotes locations gaz).1 :=
      exists_match_total_pos gaz locations ((0, 0, 0), []) hex
    have he : voteTotal locations gaz = totalOf (tallyVotes locations gaz).1 := rfl
    omega
  refine ⟨pyMaxBySnd_fst_mem3 _ _ _, ?_, ?_⟩
  · intro hge
    rw [voting_country_from_locations, if_neg htot, if_neg (not_lt.mpr hge)]
  · intro hlt
    rw [voting_country_from_locations, if_neg htot, if_pos hlt]

/-- Witness for C2: one matching candidate, threshold exactly equal to the
confidence 1 — the winner is returned, not `"uncertain"`. -/
theorem voting_threshold_boundary_witness :
    voting_country_from_locations ["Aachen"] [("aachen", "DE")] 1 =
      ("DE", 1, [("Aachen", "DE")]) := by
  have hw : winnerOf ["Aachen"] [("aachen", "DE")] = ("DE", 1) := by decide
  have htot : voteTotal ["Aachen"] [("aachen", "DE")] = 1 := by decide
  have htal : tallyVotes ["Aachen"] [("aachen", "DE")] = ((0, 0, 1), [("Aachen", "DE")]) := by
    decide
  have hc : confidenceOf ["Aachen"] [("aachen", "DE")] = 1 := by
    rw [confidenceOf, hw, htot]; norm_num
  have h := (voting_threshold_boundary ["Aachen"] [("aachen", "DE")] 1
    ⟨"Aachen", by decide, by decide⟩).2.1 (le_of_eq hc.symm)
  rw [h, hw, hc, htal]

end PvoLimburg

namespace PvoLimburg

/-! ### Claim C3 — end-to-end example of the voter -/

/-- C3.  With the gazetteer `{"maastricht": "NL", "aachen": "DE"}` and
threshold 0.6: `["Maastricht", "Maastricht", "Aachen"]` tallies NL = 2, BE = 0,
DE = 1 (total 3) and returns `("NL", 2/3, evidence)`; `["Aachen"]` returns
`("DE", 1.0, evidence)`; `[]` returns `("uncertain", 0.0, [])`. -/
theorem voting_end_to_end_example :
    tallyVotes ["Maastricht", "Maastricht", "Aachen"] [("maastricht", "NL"), ("aachen", "DE")] =
      ((2, 0, 1), [("Maastricht", "NL"), ("Maastricht", "NL"), ("Aachen", "DE")]) ∧
    voteTotal ["Maastricht", "Maastricht", "Aachen"] [("maastricht", "NL"), ("aachen", "DE")] = 3 ∧
    voting_country_from_locations ["Maastricht", "Maastricht", "Aachen"]
        [("maastricht", "NL"), ("aachen", "DE")] (6/10) =
      ("NL", 2/3, [("Maastricht", "NL"), ("Maastricht", "NL"), ("Aachen", "DE")]) ∧
    voting_country_from_locations ["Aachen"] [("maastricht", "NL"), ("aachen", "DE")] (6/10) =
      ("DE", 1, [("Aachen", "DE")]) ∧
    voting_country_from_locations [] [("maastricht", "NL"), ("aachen", "DE")] (6/10) =
      ("uncertain", 0, []) := by
  refine ⟨by decide, by decide, ?_, ?_, by decide⟩
  · have hw : winnerOf ["Maastricht", "Maastricht", "Aachen"]
        [("maastricht", "NL"), ("aachen", "DE")] = ("NL", 2) := by decide
    have htot : voteTotal ["Maastricht", "Maastricht", "Aachen"]
        [("maastricht", "NL"), ("aachen", "DE")] = 3 := by decide
    have htal : tallyVotes ["Maastricht", "Maastricht", "Aachen"]
        [("maastricht", "NL"), ("aachen", "DE")] =
        ((2, 0, 1), [("Maastricht", "NL"), ("Maastricht", "NL"), ("Aachen", "DE")]) := by decide
    have hc : confidenceOf ["Maastricht", "Maastricht", "Aachen"]
        [("maastricht", "NL"), ("aachen", "DE")] = 2/3 := by
      rw [confidenceOf, hw, htot]; norm_num
    rw [voting_country_from_locations, if_neg (by rw [htot]; omega),
      if_neg (by rw [hc]; norm_num), hw, hc, htal]
  · have hw : winnerOf ["Aachen"] [("maastricht", "NL"), ("aachen", "DE")] = ("DE", 1) := by
      decide
    have htot : voteTotal ["Aachen"] [("maastricht", "NL"), ("aachen", "DE")] = 1 := by decide
    have htal : tallyVotes ["Aachen"] [("maastricht", "NL"), ("aachen", "DE")] =
        ((0, 0, 1), [("Aachen", "DE")]) := by decide
    have hc : confidenceOf ["Aachen"] [("maastricht", "NL"), ("aachen", "DE")] = 1 := by
      rw [confidenceOf, hw, htot]; norm_num
    rw [voting_country_from_locations, if_neg (by rw [htot]; omega),
      if_neg (by rw [hc]; norm_num), hw, hc, htal]

end PvoLimburg

namespace PvoLimburg

/-! ### Claim C9 — tie-breaking order of the voter -/

/-- C9.  On a tie for the maximum vote count the winner is the first tied
country in the counter's fixed insertion order NL, BE, DE (not alphabetical
order, which would put BE first); in particular any input tallying equal NL
and BE votes with fewer DE votes wins as NL. -/
theorem tie_break_first_in_order :
    (∀ nl be de : Nat,
      pyMaxBySnd ("NL", nl) [("BE", be), ("DE", de)] =
        (if nl = max nl (max be de) then "NL"
         else if be = max nl (max be de) then "BE" else "DE",
         max nl (max be de))) ∧
    (∀ (locations : List String) (gaz : Gaz) (n d : Nat) (ev : List (String × String)),
      tallyVotes locations gaz = ((n, n, d), ev) → d < n →
      winnerOf locations gaz = ("NL", n)) := by
  constructor
  · intro nl be de
    rw [pyMaxBySnd]
    simp only [List.foldl_cons, List.foldl_nil]
    dsimp only
    rcases Nat.lt_or_ge nl be with h1 | h1
    · rw [if_pos h1]
      dsimp only
      rcases Nat.lt_or_ge be de with h2 | h2
      · rw [if_pos h2]
        have hm : max nl (max be de) = de := by omega
        rw [hm, if_neg (by omega), if_neg (by omega)]
      · rw [if_neg (Nat.not_lt.mpr h2)]
        have hm : max nl (max be de) = be := by omega
        rw [hm, if_neg (by omega), if_pos rfl]
    · rw [if_neg (Nat.not_lt.mpr h1)]
      dsimp only
      rcases Nat.lt_or_ge nl de with h2 | h2
      · rw [if_pos h2]
        have hm : max nl (max be de) = de := by omega
        rw [hm, if_neg (by omega), if_neg (by omega)]
      · rw [if_neg (Nat.not_lt.mpr h2)]
        have hm : max nl (max be de) = nl := by omega
        rw [hm, if_pos rfl]
  · intro locations gaz n d ev ht hd
    rw [winnerOf, ht]
    show pyMaxBySnd ("NL", n) [("BE", n), ("DE", d)] = ("NL", n)
    rw [pyMaxBySnd]
    simp only [List.foldl_cons, List.foldl_nil]
    dsimp only
    rw [if_neg (Nat.lt_irrefl n)]
    dsimp only
    rw [if_neg (by omega)]

/-- Witness for C9: one NL vote and one BE vote tie, no DE vote — the winner
is NL, the first country in insertion order. -/
theorem tie_break_first_in_order_witness :
    winnerOf ["Epen", "Eupen"] [("epen", "NL"), ("eupen", "BE")] = ("NL", 1) :=
  tie_break_first_in_order.2 ["Epen", "Eupen"] [("epen", "NL"), ("eupen", "BE")] 1 0
    [("Epen", "NL"), ("Eupen", "BE")] (by decide) (by decide)

end PvoLimburg

namespace PvoLimburg

/-! ### Gazetteer-parser helper lemmas -/

/-- Truth of the spec-side primary-name filter, unfolded. -/
lemma mainKept_iff (name : String) :
    mainKept name = true ↔
      (pyLower (pyStrip name) ≠ "" ∧ latinOnly (pyLower (pyStrip name))) := by
  simp [mainKept]

/-- The inner alternate-name loop body, expressed through the spec-side
filter `altKept`. -/
lemma processAlt_eq (cc : String) (acc : Gaz) (a : String) :
    processAlt cc acc a =
      if altKept a then gazSet acc (pyLower (pyStrip a)) cc else acc := by
  rw [processAlt, altKept]
  by_cases h1 : pyLower (pyStrip a) = ""
  · simp [h1]
  · by_cases h2 : latinOnly (pyLower (pyStrip a))
    · by_cases h3 : (pyLower (pyStrip a)).length < 3
      · have hle : ¬ (3 ≤ (pyLower (pyStrip a)).length) := by omega
        simp [h1, h2, h3, hle]
      · have hle : 3 ≤ (pyLower (pyStrip a)).length := by omega
        by_cases h4 : hasVowel (pyLower (pyStrip a)) <;> simp [h1, h2, h3, hle, h4]
    · simp [h1, h2]

/-- A run of the alternate-name loop in which every name fails the filter
leaves the accumulator unchanged. -/
lemma foldl_processAlt_all_fail (cc : String) :
    ∀ (l : List String) (acc : Gaz),
      (∀ a ∈ l, altKept a = false) → l.foldl (processAlt cc) acc = acc := by
  intro l
  induction l with
  | nil => intro acc _; rfl
  | cons a l ih =>
      intro acc h
      rw [List.foldl_cons, processAlt_eq,
        if_neg (by rw [h a (List.mem_cons_self a l)]; exact Bool.false_ne_true)]
      exact ih acc (fun x hx => h x (List.mem_cons_of_mem a hx))

/-- The alternate-name loop adds exactly the names passing the filter, in
order. -/
lemma foldl_processAlt_filter (cc : String) :
    ∀ (l : List String) (acc : Gaz),
      l.foldl (processAlt cc) acc =
        (l.filter altKept).foldl (fun acc a => gazSet acc (pyLower (pyStrip a)) cc) acc := by
  intro l
  induction l with
  | nil => intro acc; rfl
  | cons a l ih =>
      intro acc
      rw [List.foldl_cons, processAlt_eq, List.filter_cons]
      by_cases h : altKept a
      · rw [if_pos h, if_pos h, List.foldl_cons]
        exact ih _
      · rw [if_neg h, if_neg (by simp [h])]
        exact ih acc

end PvoLimburg

namespace PvoLimburg

/-! ### Claim C5 — row-level skipping in the gazetteer parser -/

/-- C5.  Gazetteer construction is total (no exception in the model) and
skips without effect: a row with fewer than 9 columns leaves the index
unchanged; so does a row whose country code is not in `keep_countries` or
whose feature class is not in `keep_classes`; and a row all of whose names
fail the character filters contributes nothing either. -/
theorem gazetteer_row_skips :
    ∀ (keepC keepF : List String) (ka : Bool) (g : Gaz) (row : List String),
      (row.length < 9 → processRow keepC keepF ka g row = g) ∧
      (row.getD 8 "" ∉ keepC → processRow keepC keepF ka g row = g) ∧
      (row.getD 6 "" ∉ keepF → processRow keepC keepF ka g row = g) ∧
      (mainKept (row.getD 1 "") = false →
        (∀ a ∈ altCandidates row ka, altKept a = false) →
        processRow keepC keepF ka g row = g) := by
  intro keepC keepF ka g row
  refine ⟨?_, ?_, ?_, ?_⟩
  · intro h
    simp only [processRow]
    rw [if_pos h]
  · intro h
    simp only [processRow]
    by_cases h9 : row.length < 9
    · rw [if_pos h9]
    · rw [if_neg h9, if_pos h]
  · intro h
    simp only [processRow]
    by_cases h9 : row.length < 9
    · rw [if_pos h9]
    · by_cases hcc : row.getD 8 "" ∉ keepC
      · rw [if_neg h9, if_pos hcc]
      · rw [if_neg h9, if_neg hcc, if_pos h]
  · intro hmain halt
    simp only [processRow]
    by_cases h9 : row.length < 9
    · rw [if_pos h9]
    · by_cases hcc : row.getD 8 "" ∉ keepC
      · rw [if_neg h9, if_pos hcc]
      · by_cases hfc : row.getD 6 "" ∉ keepF
        · rw [if_neg h9, if_neg hcc, if_pos hfc]
        · have hm : ¬ (pyLower (pyStrip (row.getD 1 "")) ≠ "" ∧
              latinOnly (pyLower (pyStrip (row.getD 1 "")))) := by
            intro hc
            rw [(mainKept_iff (row.getD 1 "")).mpr hc] at hmain
            exact Bool.noConfusion hmain
          rw [if_neg h9, if_neg hcc, if_neg hfc, if_neg hm]
          exact foldl_processAlt_all_fail _ _ _ halt

/-- Witness for C5: a two-column row is skipped and leaves a one-entry index
unchanged. -/
theorem gazetteer_row_skips_witness :
    processRow ["NL"] ["P"] true [("aachen", "DE")] ["2950159", "Berlin"] =
      [("aachen", "DE")] :=
  (gazetteer_row_skips ["NL"] ["P"] true [("aachen", "DE")] ["2950159", "Berlin"]).1
    (by decide)

/-! ### Claim C6 — name-level filters in the gazetteer parser -/

/-- C6.  For a row that is long enough and passes both membership tests, the
entries written to the index are exactly: the stripped-and-lowercased primary
name when it is non-empty and matches the allowed-character pattern (no other
condition), followed by each stripped-and-lowercased alternate name that is
non-empty, matches the pattern, has length at least 3 and contains a
`HAS_VOWEL` character — an alternate name is added if and only if it passes
all four conditions. -/
theorem gazetteer_name_filters :
    ∀ (keepC keepF : List String) (ka : Bool) (g : Gaz) (row : List String),
      9 ≤ row.length → row.getD 8 "" ∈ keepC → row.getD 6 "" ∈ keepF →
      processRow keepC keepF ka g row =
        ((altCandidates row ka).filter altKept).foldl
          (fun acc a => gazSet acc (pyLower (pyStrip a)) (row.getD 8 ""))
          (if mainKept (row.getD 1 "") then
            gazSet g (pyLower (pyStrip (row.getD 1 ""))) (row.getD 8 "")
          else g) := by
  intro keepC keepF ka g row h9 hcc hfc
  simp only [processRow]
  rw [if_neg (by omega), if_neg (by simp only [not_not]; exact hcc),
    if_neg (by simp only [not_not]; exact hfc), foldl_processAlt_filter]
  by_cases hm : mainKept (row.getD 1 "") = true
  · rw [if_pos ((mainKept_iff (row.getD 1 "")).mp hm), if_pos hm]
  · rw [if_neg (fun hc => hm ((mainKept_iff (row.getD 1 "")).mpr hc)), if_neg hm]

/-- Witness for C6 on a concrete GeoNames-shaped row: the primary name and the
alternate `Mestreech` are added; the alternate `MA` (too short) and the
alternate `xq` (no vowel, too short) are not. -/
theorem gazetteer_name_filters_witness :
    processRow ["NL"] ["P"] true []
      ["2751283", "Maastricht", "Maastricht", "Mestreech,MA,xq", "50.84833", "5.68889",
       "P", "PPL", "NL"] = [("mestreech", "NL"), ("maastricht", "NL")] := by
  have h := gazetteer_name_filters ["NL"] ["P"] true []
    ["2751283", "Maastricht", "Maastricht", "Mestreech,MA,xq", "50.84833", "5.68889",
     "P", "PPL", "NL"] (by decide) (by decide) (by decide)
  rw [h]
  decide

end PvoLimburg
